import Mathlib

/-!
# Verification of the redux core against its specification

Shallow embedding of the redux predictable-state container:
`compose.js`, `applyMiddleware` (src/unnamed/part_002),
`combineReducers` (src/unnamed/part_001), `createStore.js`, and
`utils/isPlainObject.js`.

Modelling conventions:
* JavaScript `===` on objects (reference identity) is modelled by equality
  of values that carry an explicit identity (`Nat` ids on objects and
  functions), or by a dedicated constructor (`CombResult.original`) where the
  source distinguishes "the very same object" from "a fresh object".
* `undefined` is modelled by `Option.none` (for reducer slice values) or by
  the dedicated `JSVal.undefV` value.
* Exceptions are modelled with `Except String`; `dispatch`, whose
  `try/finally` leaves observable state behind even when the reducer throws,
  returns its store state next to the `Except` result.
* The per-process random suffix of the private action types exists only to
  avoid collisions with application action types; it is dropped here
  (the control flow of the modelled functions never depends on it).
* Diagnostic-only warning emission (`warning(...)`, non-production shape
  warnings) never influences any returned value and is not modelled.
-/

namespace Redux

/-! ## JavaScript values (as far as the core inspects them)

A value is `undefined`, `null`, a primitive, a function, or an object.
An object carries an identity (`Nat`), its full prototype chain (the ids of
`getPrototypeOf(v)`, `getPrototypeOf(getPrototypeOf(v))`, ..., ending just
before `null`), and its own enumerable fields. -/

inductive JSVal where
  | undefV : JSVal
  | jsNull : JSVal
  | boolV : Bool → JSVal
  | numV : Int → JSVal
  | strV : String → JSVal
  | fn : Nat → JSVal
  | obj : Nat → List Nat → List (String × JSVal) → JSVal

/-- `typeof v === 'undefined'`. -/
def JSVal.isUndefined : JSVal → Bool
  | .undefV => true
  | _ => false

/-- Field access `v[name]`: `undefined` for missing fields and non-objects. -/
def findField : List (String × JSVal) → String → JSVal
  | [], _ => .undefV
  | (k, x) :: rest, name => if k = name then x else findField rest name

def getField (v : JSVal) (name : String) : JSVal :=
  match v with
  | .obj _ _ fields => findField fields name
  | _ => .undefV

/-! ## src/utils/isPlainObject.js

```js
export default function isPlainObject(obj) {
  if (typeof obj !== 'object' || obj === null) return false
  let proto = obj
  while (Object.getPrototypeOf(proto) !== null) {
    proto = Object.getPrototypeOf(proto)
  }
  return Object.getPrototypeOf(obj) === proto
}
```

The `while` loop walks to the terminus of the prototype chain; on the model
of a chain as the list of prototype ids it is `protoWalk`. -/

/-- The terminus of a non-empty prototype chain: keep stepping while the
current prototype itself has a prototype. -/
def protoWalk (first : Nat) : List Nat → Nat
  | [] => first
  | p :: ps => protoWalk p ps

def isPlainObject : JSVal → Bool
  | .obj _ proto _ =>
    match proto with
    | [] => false        -- getPrototypeOf(obj) is null, proto is obj itself
    | p :: ps => protoWalk p ps = p
  | _ => false           -- typeof not 'object', or the value is null

/-! ## src/compose.js

```js
export default function compose(...funcs) {
  if (funcs.length === 0) return arg => arg
  if (funcs.length === 1) return funcs[0]
  return funcs.reduce((a, b) => (...args) => a(b(...args)))
}
```

`Array.prototype.reduce` with no seed folds the tail from the left with the
head as the accumulator. -/

def compose {α : Type _} (funcs : List (α → α)) : α → α :=
  match funcs with
  | [] => fun arg => arg
  | f :: rest =>
    match rest with
    | [] => f            -- length 1: the very function, not wrapped
    | _ :: _ => rest.foldl (fun a b => fun args => a (b args)) f

/-! ## applyMiddleware (src/unnamed/part_002), the composition step

```js
const chain = middlewares.map(middleware => middleware(middlewareAPI))
dispatch = compose(...chain)(store.dispatch)
```

Each middleware is invoked once with the fixed capability object to produce
one pipeline stage; the stages are threaded by `compose` with the base
dispatch innermost. -/

def applyMiddlewareDispatch {Api D : Type _} (middlewares : List (Api → D → D))
    (middlewareAPI : Api) (baseDispatch : D) : D :=
  let chain := middlewares.map (fun middleware => middleware middlewareAPI)
  compose chain baseDispatch

/-- Trace-recording middleware stage `i`: logs its tag, then calls the next
stage. Dispatch values are trace transformers. -/
def traceMiddleware (i : Nat) : Unit → (List Nat → List Nat) → (List Nat → List Nat) :=
  fun _ next => fun log => next (log ++ [i])

/-- Trace-recording base dispatch: logs tag `0`. -/
def traceBaseDispatch : List Nat → List Nat :=
  fun log => log ++ [0]

/-! ## Claims C7, C8, C9 -/

/-- C8: the function composer satisfies `compose(f, g, h)(x) = f(g(h(x)))`;
`compose()` is the identity function; `compose(f)` is `f` itself, not a
wrapper around it. -/
theorem c8_compose_contract {α : Type _} :
    (∀ (f g h : α → α) (x : α), compose [f, g, h] x = f (g (h x)))
    ∧ (∀ x : α, compose ([] : List (α → α)) x = x)
    ∧ (∀ f : α → α, compose [f] = f) := by
  refine ⟨fun f g h x => rfl, fun x => rfl, fun f => rfl⟩

/-- C7: for middleware `[m1, m2]`, the composed dispatch is `m1`'s wrapper
around `m2`'s wrapper around the base dispatch (stages threaded right to
left, raw dispatch innermost); on trace-recording middleware the recorded
call order is `m1`'s wrapper, then `m2`'s wrapper, then the base dispatch. -/
theorem c7_middleware_order :
    (∀ (Api D : Type) (m1 m2 : Api → D → D) (api : Api) (baseDispatch : D),
      applyMiddlewareDispatch [m1, m2] api baseDispatch =
        m1 api (m2 api baseDispatch))
    ∧ applyMiddlewareDispatch [traceMiddleware 1, traceMiddleware 2] ()
        traceBaseDispatch [] = [1, 2, 0] := by
  exact ⟨fun Api D m1 m2 api d => rfl, rfl⟩

/-- The prototype-chain walk reaches the last element of the chain. -/
theorem protoWalk_getLast? (q : Nat) (qs : List Nat) :
    (q :: qs).getLast? = some (protoWalk q qs) := by
  induction qs generalizing q with
  | nil => rfl
  | cons r rs ih => rw [protoWalk, List.getLast?_cons_cons, ih]

/-- C9: the plain-object validator accepts exactly the non-null objects whose
prototype-chain terminus is their immediate prototype; in particular an
object with a `null` prototype (empty chain) is rejected. -/
theorem c9_isPlainObject_iff :
    (∀ v : JSVal, isPlainObject v = true ↔
      ∃ id proto fields, v = JSVal.obj id proto fields ∧ proto ≠ [] ∧
        proto.getLast? = proto.head?)
    ∧ (∀ id fields, isPlainObject (JSVal.obj id [] fields) = false) := by
  constructor
  · intro v
    constructor
    · intro h
      match v with
      | .obj id proto fields =>
        match proto with
        | [] => simp [isPlainObject] at h
        | p :: ps =>
          refine ⟨id, p :: ps, fields, rfl, by simp, ?_⟩
          simp only [isPlainObject, decide_eq_true_eq] at h
          rw [protoWalk_getLast?, h]
          rfl
      | .undefV => simp [isPlainObject] at h
      | .jsNull => simp [isPlainObject] at h
      | .boolV b => simp [isPlainObject] at h
      | .numV n => simp [isPlainObject] at h
      | .strV s => simp [isPlainObject] at h
      | .fn i => simp [isPlainObject] at h
    · rintro ⟨id, proto, fields, rfl, hne, hlast⟩
      match proto, hne with
      | p :: ps, _ =>
        simp only [isPlainObject, decide_eq_true_eq]
        rw [protoWalk_getLast?] at hlast
        simp at hlast
        omega
  · intro id fields
    simp [isPlainObject]

/-! ## combineReducers (src/unnamed/part_001)

Slice values live in an arbitrary type `V` with decidable equality; equality
in `V` models JavaScript `===` on slice values.  A slice reducer takes the
(possibly `undefined`) prior slice and an action, and returns the next slice
(`none` modelling the forbidden `undefined` return).  Actions here are
records with a `type` discriminator, the only field the combinator itself
ever constructs or inspects.  The per-process random suffix of the two
private action types is dropped: no modelled control flow depends on it. -/

structure FluxAction where
  type : String
deriving DecidableEq

def ActionTypes.INIT : String := "@@redux/INIT"

def ActionTypes.REPLACE : String := "@@redux/REPLACE"

def ActionTypes.PROBE_UNKNOWN_ACTION : String := "@@redux/PROBE_UNKNOWN_ACTION"

abbrev SReducer (V : Type) := Option V → FluxAction → Option V

/-- JavaScript property read `state[key]` on a string-keyed mapping. -/
def jsGet {V : Type} : List (String × V) → String → Option V
  | [], _ => none
  | (k, v) :: rest, key => if k = key then some v else jsGet rest key

def getUndefinedStateErrorMessage (key : String) (action : FluxAction) : String :=
  "Given action " ++ action.type ++ ", reducer " ++ key ++ " returned undefined. " ++
  "To ignore an action, you must explicitly return the previous state."

/-- `assertReducerShape`: probe every reducer with an undefined prior state
and the private init action, then with an undefined prior state and the
unknown-action probe; fail on the first reducer yielding `undefined`. -/
def assertReducerShape {V : Type} : List (String × SReducer V) → Except String Unit
  | [] => .ok ()
  | (key, reducer) :: rest =>
    let initialState := reducer none { type := ActionTypes.INIT }
    if initialState.isNone then
      .error ("Reducer " ++ key ++ " returned undefined during initialization.")
    else if (reducer none { type := ActionTypes.PROBE_UNKNOWN_ACTION }).isNone then
      .error ("Reducer " ++ key ++ " returned undefined when probed with a random type.")
    else
      assertReducerShape rest

/-- The closure state captured by the returned `combination` function:
the retained (function-valued) entries and the shape-assertion error that
`combineReducers` caught, if any. -/
structure Combined (V : Type) where
  finalReducers : List (String × SReducer V)
  shapeAssertionError : Option String

/-- `combineReducers`: retain the function-valued entries, run
`assertReducerShape` inside `try { ... } catch (e) { shapeAssertionError = e }`
(the call itself never throws), and return the combination closure.
An input entry `none` models a non-function value that is filtered out. -/
def combineReducers {V : Type} (reducers : List (String × Option (SReducer V))) :
    Combined V :=
  let finalReducers := reducers.filterMap (fun kr => kr.2.map (fun r => (kr.1, r)))
  let shapeAssertionError :=
    match assertReducerShape finalReducers with
    | .ok _ => none
    | .error e => some e
  { finalReducers := finalReducers, shapeAssertionError := shapeAssertionError }

/-- Result of one `combination` call: `original` models returning the very
`state` object that was passed in (same reference); `fresh next` models
returning the freshly constructed `nextState` object. -/
inductive CombResult (V : Type) where
  | original : CombResult V
  | fresh : List (String × V) → CombResult V
deriving DecidableEq

/-- The per-key loop of `combination`: for each retained key, run its reducer
on the prior slice, throw on an `undefined` result, accumulate the slice
result and the `hasChanged` flag (`nextStateForKey !== previousStateForKey`). -/
def combLoop {V : Type} [DecidableEq V] (state : List (String × V))
    (action : FluxAction) :
    List (String × SReducer V) → Bool → List (String × V) →
      Except String (Bool × List (String × V))
  | [], hasChanged, nextState => .ok (hasChanged, nextState)
  | (key, reducer) :: rest, hasChanged, nextState =>
    let previousStateForKey := jsGet state key
    match reducer previousStateForKey action with
    | none => .error (getUndefinedStateErrorMessage key action)
    | some v =>
      combLoop state action rest
        (hasChanged || decide (some v ≠ previousStateForKey))
        (nextState ++ [(key, v)])

/-- The combined reducer returned by `combineReducers`: rethrow a captured
shape-assertion error, run every retained slice reducer, then either return
the original state object or the fresh `nextState`, deciding by the
accumulated flag or a key-count mismatch
(`finalReducerKeys.length !== Object.keys(state).length`). -/
def combination {V : Type} [DecidableEq V] (c : Combined V)
    (state : List (String × V)) (action : FluxAction) :
    Except String (CombResult V) :=
  match c.shapeAssertionError with
  | some e => .error e
  | none =>
    match combLoop state action c.finalReducers false [] with
    | .error e => .error e
    | .ok (hc, nextState) =>
      let hasChanged := hc || decide (c.finalReducers.length ≠ state.length)
      .ok (if hasChanged then .fresh nextState else .original)

/-- Modelled from the spec wording "a freshly constructed mapping with all
slice results": the slice result of every retained reducer, in key order.
Used only on the specification side of the refinement theorems. -/
def sliceResultsSpec {V : Type} (reducers : List (String × SReducer V))
    (state : List (String × V)) (action : FluxAction) :
    List (String × Option V) :=
  reducers.map (fun kr => (kr.1, kr.2 (jsGet state kr.1) action))

/-- Characterisation of a successful `combLoop` run: the final flag is clear
iff it started clear and every slice reducer reproduced its prior slice, and
the accumulated list extends the accumulator with exactly the slice results. -/
theorem combLoop_ok {V : Type} [DecidableEq V] (state : List (String × V))
    (action : FluxAction) :
    ∀ (rs : List (String × SReducer V)) (hc : Bool) (acc : List (String × V))
      (hc' : Bool) (next : List (String × V)),
      combLoop state action rs hc acc = .ok (hc', next) →
      ((hc' = false ↔ hc = false ∧
          ∀ kr ∈ rs, kr.2 (jsGet state kr.1) action = jsGet state kr.1)
       ∧ next.map (fun p => (p.1, some p.2)) =
           acc.map (fun p => (p.1, some p.2)) ++ sliceResultsSpec rs state action
       ∧ next.map Prod.fst = acc.map Prod.fst ++ rs.map Prod.fst) := by
  intro rs
  induction rs with
  | nil =>
    intro hc acc hc' next h
    simp only [combLoop, Except.ok.injEq, Prod.mk.injEq] at h
    obtain ⟨rfl, rfl⟩ := h
    simp [sliceResultsSpec]
  | cons kr rest ih =>
    intro hc acc hc' next h
    obtain ⟨key, reducer⟩ := kr
    simp only [combLoop] at h
    cases hred : reducer (jsGet state key) action with
    | none => rw [hred] at h; exact absurd h (by simp)
    | some v =>
      rw [hred] at h
      obtain ⟨hiff, hmap, hfst⟩ := ih _ _ _ _ h
      refine ⟨?_, ?_, ?_⟩
      · rw [hiff]
        constructor
        · rintro ⟨hor, hall⟩
          rcases Bool.or_eq_false_iff.mp hor with ⟨h1, h2⟩
          refine ⟨h1, ?_⟩
          intro kr hkr
          rcases List.mem_cons.mp hkr with heq | hmem
          · subst heq
            simp only at hred ⊢
            rw [hred]
            have := of_decide_eq_false h2
            simpa using not_not.mp (fun hne => this hne)
          · exact hall kr hmem
        · rintro ⟨h1, hall⟩
          have hhead := hall (key, reducer) (List.mem_cons_self _ _)
          simp only at hhead
          rw [hred] at hhead
          refine ⟨Bool.or_eq_false_iff.mpr ⟨h1, ?_⟩,
            fun kr hkr => hall kr (List.mem_cons_of_mem _ hkr)⟩
          simp [hhead]
      · rw [hmap]
        simp only [sliceResultsSpec, List.map_cons, List.map_append]
        rw [hred]
        simp [sliceResultsSpec]
      · rw [hfst]
        simp

/-- C1: the combined reducer returns the original state object iff every
retained slice reducer reproduces its prior slice and the retained key count
equals the key count of the prior state; any fresh result consists of exactly
the slice results. -/
theorem c1_combination_unchanged_iff {V : Type} [DecidableEq V]
    (reducers : List (String × Option (SReducer V)))
    (state : List (String × V)) (action : FluxAction) (res : CombResult V)
    (hok : combination (combineReducers reducers) state action = .ok res) :
    (res = .original ↔
      ((∀ kr ∈ (combineReducers reducers).finalReducers,
          kr.2 (jsGet state kr.1) action = jsGet state kr.1)
       ∧ (combineReducers reducers).finalReducers.length = state.length))
    ∧ (∀ next, res = .fresh next →
        next.map (fun p => (p.1, some p.2)) =
          sliceResultsSpec (combineReducers reducers).finalReducers state action) := by
  set c := combineReducers reducers with hc
  unfold combination at hok
  cases hshape : c.shapeAssertionError with
  | some e => rw [hshape] at hok; exact absurd hok (by simp)
  | none =>
    rw [hshape] at hok
    cases hloop : combLoop state action c.finalReducers false [] with
    | error e => rw [hloop] at hok; exact absurd hok (by simp)
    | ok pr =>
      obtain ⟨hcflag, nextState⟩ := pr
      rw [hloop] at hok
      simp only [Except.ok.injEq] at hok
      obtain ⟨hiff, hmap, _⟩ := combLoop_ok state action _ _ _ _ _ hloop
      simp only [List.map_nil, List.nil_append] at hmap
      by_cases hch : (hcflag || decide (c.finalReducers.length ≠ state.length)) = true
      · rw [if_pos hch] at hok
        subst hok
        constructor
        · constructor
          · intro h; exact absurd h (by simp)
          · rintro ⟨hall, hlen⟩
            exfalso
            rcases Bool.or_eq_true_iff.mp hch with h1 | h2
            · have : hcflag = false := (hiff.mpr ⟨rfl, hall⟩)
              rw [this] at h1; exact absurd h1 (by simp)
            · exact (of_decide_eq_true h2) hlen
        · intro next hnext
          simp only [CombResult.fresh.injEq] at hnext
          subst hnext
          exact hmap
      · rw [if_neg hch] at hok
        subst hok
        have hch' := Bool.or_eq_false_iff.mp (Bool.not_eq_true _ |>.mp hch)
        obtain ⟨h1, h2⟩ := hch'
        constructor
        · constructor
          · intro _
            exact ⟨(hiff.mp h1).2, not_not.mp (fun hne => (of_decide_eq_false h2) hne)⟩
          · intro _; rfl
        · intro next hnext
          exact absurd hnext (by simp)

/-- C10: whenever the combined reducer returns a fresh state mapping, its key
list is exactly the retained reducer key list; in particular every key of the
prior state that is not a retained reducer key is dropped from the result. -/
theorem c10_fresh_keys {V : Type} [DecidableEq V]
    (reducers : List (String × Option (SReducer V)))
    (state : List (String × V)) (action : FluxAction) (next : List (String × V))
    (hok : combination (combineReducers reducers) state action = .ok (.fresh next)) :
    next.map Prod.fst = (combineReducers reducers).finalReducers.map Prod.fst
    ∧ ∀ k, k ∈ state.map Prod.fst →
        k ∉ (combineReducers reducers).finalReducers.map Prod.fst →
        k ∉ next.map Prod.fst := by
  set c := combineReducers reducers with hc
  unfold combination at hok
  cases hshape : c.shapeAssertionError with
  | some e => rw [hshape] at hok; exact absurd hok (by simp)
  | none =>
    rw [hshape] at hok
    cases hloop : combLoop state action c.finalReducers false [] with
    | error e => rw [hloop] at hok; exact absurd hok (by simp)
    | ok pr =>
      obtain ⟨hcflag, nextState⟩ := pr
      rw [hloop] at hok
      simp only [Except.ok.injEq] at hok
      obtain ⟨_, _, hfst⟩ := combLoop_ok state action _ _ _ _ _ hloop
      simp only [List.map_nil, List.nil_append] at hfst
      by_cases hch : (hcflag || decide (c.finalReducers.length ≠ state.length)) = true
      · rw [if_pos hch] at hok
        simp only [CombResult.fresh.injEq] at hok
        subst hok
        refine ⟨hfst, ?_⟩
        intro k _ hnot
        rw [hfst]
        exact hnot
      · rw [if_neg hch] at hok
        exact absurd hok (by simp)

/-- Slice reducer used by witnesses: supplies initial state `0`, otherwise
returns its prior slice unchanged. -/
def witnessReducerId : SReducer Nat := fun s _ =>
  match s with
  | none => some 0
  | some v => some v

/-- Slice reducer used by witnesses: supplies initial state `0`, otherwise
increments its prior slice. -/
def witnessReducerIncr : SReducer Nat := fun s _ =>
  match s with
  | none => some 0
  | some v => some (v + 1)

/-- Slice reducer that always returns the missing sentinel. -/
def badReducer : SReducer Nat := fun _ _ => none

/-- Witness for C1: two identity slice reducers over a matching two-key state
leave every slice unchanged with matching key counts, and the combined
reducer indeed reports the original state object. -/
theorem c1_witness :
    ((CombResult.original : CombResult Nat) = .original ↔
      ((∀ kr ∈ (combineReducers
            [("a", some witnessReducerId), ("b", some witnessReducerId)]).finalReducers,
          kr.2 (jsGet [("a", 3), ("b", 4)] kr.1) { type := "T" } =
            jsGet [("a", 3), ("b", 4)] kr.1)
       ∧ (combineReducers
            [("a", some witnessReducerId), ("b", some witnessReducerId)]).finalReducers.length =
          ([("a", 3), ("b", 4)] : List (String × Nat)).length))
    ∧ (∀ next, (CombResult.original : CombResult Nat) = .fresh next →
        next.map (fun p => (p.1, some p.2)) =
          sliceResultsSpec (combineReducers
              [("a", some witnessReducerId), ("b", some witnessReducerId)]).finalReducers
            [("a", 3), ("b", 4)] { type := "T" }) :=
  c1_combination_unchanged_iff
    [("a", some witnessReducerId), ("b", some witnessReducerId)]
    [("a", 3), ("b", 4)] { type := "T" } .original (by rfl)

/-- Witness for C10: an incrementing slice reducer forces a fresh result, the
unknown key "zzz" of the prior state is dropped, and the result keys are
exactly the retained reducer keys. -/
theorem c10_witness :
    ([("a", 6)] : List (String × Nat)).map Prod.fst =
      (combineReducers [("a", some witnessReducerIncr)]).finalReducers.map Prod.fst
    ∧ ∀ k, k ∈ ([("a", 5), ("zzz", 9)] : List (String × Nat)).map Prod.fst →
        k ∉ (combineReducers [("a", some witnessReducerIncr)]).finalReducers.map Prod.fst →
        k ∉ ([("a", 6)] : List (String × Nat)).map Prod.fst :=
  c10_fresh_keys [("a", some witnessReducerIncr)] [("a", 5), ("zzz", 9)]
    { type := "T" } [("a", 6)] (by rfl)

/-- If some retained reducer fails the init probe or the unknown-action
probe, `assertReducerShape` reports an error. -/
theorem assertReducerShape_fails {V : Type} :
    ∀ rs : List (String × SReducer V),
      (∃ kr ∈ rs, kr.2 none { type := ActionTypes.INIT } = none ∨
          kr.2 none { type := ActionTypes.PROBE_UNKNOWN_ACTION } = none) →
      ∃ e, assertReducerShape rs = .error e := by
  intro rs
  induction rs with
  | nil => rintro ⟨kr, hmem, _⟩; exact absurd hmem (by simp)
  | cons hd rest ih =>
    rintro ⟨kr, hmem, hbad⟩
    obtain ⟨key, reducer⟩ := hd
    cases hinit : reducer none { type := ActionTypes.INIT } with
    | none =>
      exact ⟨"Reducer " ++ key ++ " returned undefined during initialization.",
        by simp [assertReducerShape, hinit]⟩
    | some v =>
      cases hprobe : reducer none { type := ActionTypes.PROBE_UNKNOWN_ACTION } with
      | none =>
        exact ⟨"Reducer " ++ key ++ " returned undefined when probed with a random type.",
          by simp [assertReducerShape, hinit, hprobe]⟩
      | some w =>
        rcases List.mem_cons.mp hmem with heq | hmem'
        · subst heq
          simp only at hbad
          rcases hbad with h | h
          · rw [hinit] at h; exact absurd h (by simp)
          · rw [hprobe] at h; exact absurd h (by simp)
        · obtain ⟨e, he⟩ := ih ⟨kr, hmem', hbad⟩
          exact ⟨e, by simp [assertReducerShape, hinit, hprobe, he]⟩

/-- C2 counterexample: a reducer that returns the missing sentinel for every
action fails the shape probes, yet the combinator call itself completes
normally — the reducer is retained and a `Combined` value is produced — and
the captured error surfaces only when the combined reducer is invoked.  This
refutes "fails fast with a construction-time error, surfaced immediately at
the combinator call itself". -/
theorem c2_counterexample :
    (assertReducerShape [("x", badReducer)]).isOk = false
    ∧ (combineReducers [("x", some badReducer)]).finalReducers.length = 1
    ∧ combination (combineReducers [("x", some badReducer)]) [] { type := "T" } =
        .error ("Reducer x returned undefined during initialization.") :=
  ⟨rfl, rfl, rfl⟩

/-- C2 as amended: if any retained slice reducer returns the missing sentinel
for the private init action or for the unknown-action probe, the combinator
captures a shape-assertion error at construction time and the combined
reducer re-raises exactly that error on every invocation (so under
`createStore` it surfaces at the automatic init dispatch, not at the
combinator call itself). -/
theorem c2_amended {V : Type} [DecidableEq V]
    (reducers : List (String × Option (SReducer V)))
    (hbad : ∃ kr ∈ (combineReducers reducers).finalReducers,
        kr.2 none { type := ActionTypes.INIT } = none ∨
        kr.2 none { type := ActionTypes.PROBE_UNKNOWN_ACTION } = none) :
    ∃ e, (combineReducers reducers).shapeAssertionError = some e
      ∧ ∀ (state : List (String × V)) (action : FluxAction),
          combination (combineReducers reducers) state action = .error e := by
  obtain ⟨e, he⟩ := assertReducerShape_fails (combineReducers reducers).finalReducers hbad
  have hshape : (combineReducers reducers).shapeAssertionError = some e := by
    show (match assertReducerShape ((combineReducers reducers).finalReducers) with
      | .ok _ => none
      | .error e => some e) = some e
    rw [he]
  exact ⟨e, hshape, fun state action => by unfold combination; rw [hshape]⟩

/-- Witness for the amended C2 at the always-undefined reducer. -/
theorem c2_witness :
    ∃ e, (combineReducers [("x", some badReducer)]).shapeAssertionError = some e
      ∧ ∀ (state : List (String × Nat)) (action : FluxAction),
          combination (combineReducers [("x", some badReducer)]) state action =
            .error e :=
  c2_amended [("x", some badReducer)]
    ⟨("x", badReducer), by simp [combineReducers], Or.inl rfl⟩

/-! ## createStore.js — the store engine

The closure state of `createStore` is the `Store` record.  Listener function
references are `Nat` ids; the body a listener executes when invoked is given
by an environment `prog : Nat → LBody` (a listener may do nothing or invoke
an unsubscribe closure — the operations claim C6 is about).  Each call to
`subscribe` returns an unsubscribe closure capturing the listener reference
and its own `isSubscribed` flag (`UnsubClosure`); the flags of the closures
reachable from listener bodies are threaded through a table `ClosTab`.

`ensureCanMutateNextListeners` replaces `nextListeners` with a shallow copy
when it still aliases `currentListeners`, so that the array a dispatch is
iterating over is never mutated in place.  Under the value semantics of this
model a copy is the same value and mutation is replacement, so the function
is the identity; it is kept so call sites match the source. -/

structure UnsubClosure where
  listener : Nat
  subscribed : Bool
deriving DecidableEq

inductive LBody where
  | nop : LBody
  | unsub : Nat → LBody
deriving DecidableEq

structure Store (S : Type) where
  currentReducer : S → JSVal → Except String S
  currentState : S
  currentListeners : Option (List Nat)
  nextListeners : List Nat
  isDispatching : Bool

abbrev ClosTab := Nat → UnsubClosure

def getStateErrMsg : String :=
  "You may not call store.getState() while the reducer is executing."

def subscribeErrMsg : String :=
  "You may not call store.subscribe() while the reducer is executing."

def unsubscribeErrMsg : String :=
  "You may not unsubscribe from a store listener while the reducer is executing."

def actionsPlainErrMsg : String :=
  "Actions must be plain objects. Use custom middleware for async actions."

def actionTypeErrMsg : String :=
  "Actions may not have an undefined type property."

def reducersDispatchErrMsg : String :=
  "Reducers may not dispatch actions."

def ensureCanMutateNextListeners {S : Type} (st : Store S) : Store S := st

def getState {S : Type} (st : Store S) : Except String S :=
  if st.isDispatching then .error getStateErrMsg
  else .ok st.currentState

/-- `subscribe(listener)`: rejects while dispatching, then pushes the
listener onto `nextListeners` and returns the unsubscribe closure with its
`isSubscribed` flag set.  (The typeof-function argument check cannot fire in
this model: every listener id denotes a function.) -/
def subscribe {S : Type} (st : Store S) (listener : Nat) :
    Except String (Store S × UnsubClosure) :=
  if st.isDispatching then .error subscribeErrMsg
  else
    let st1 := ensureCanMutateNextListeners st
    .ok ({ st1 with nextListeners := st1.nextListeners ++ [listener] },
         { listener := listener, subscribed := true })

/-- `Array.prototype.indexOf`: index of the first occurrence, `-1` if absent. -/
def jsIndexOf (l : List Nat) (x : Nat) : Int :=
  match l with
  | [] => -1
  | y :: ys =>
    if y = x then 0
    else
      let r := jsIndexOf ys x
      if r < 0 then -1 else r + 1

/-- `Array.prototype.splice(i, 1)` as a value: removes one element at the
actual start index (negative indices count from the end, clamped at 0). -/
def jsSpliceOne (l : List Nat) (i : Int) : List Nat :=
  let len : Int := l.length
  let start : Int := if i < 0 then max (len + i) 0 else min i len
  let s : Nat := start.toNat
  l.take s ++ l.drop (s + 1)

def jsRemoveFirst (l : List Nat) (x : Nat) : List Nat :=
  jsSpliceOne l (jsIndexOf l x)

/-- The `unsubscribe` closure returned by `subscribe`: a silent no-op when
already spent, an error while dispatching, otherwise clears its flag and
splices its listener out of `nextListeners` (also nulling
`currentListeners`). -/
def unsubscribeFn {S : Type} (u : UnsubClosure) (st : Store S) :
    Except String (UnsubClosure × Store S) :=
  if u.subscribed = false then .ok (u, st)
  else if st.isDispatching then .error unsubscribeErrMsg
  else
    let u1 : UnsubClosure := { u with subscribed := false }
    let st1 := ensureCanMutateNextListeners st
    let index := jsIndexOf st1.nextListeners u.listener
    .ok (u1, { st1 with
                nextListeners := jsSpliceOne st1.nextListeners index,
                currentListeners := none })

def updateTab (tab : ClosTab) (cid : Nat) (u : UnsubClosure) : ClosTab :=
  fun i => if i = cid then u else tab i

/-- Execute one listener body against the store; an uncaught exception from
the body is reported in the third component. -/
def runLBody {S : Type} (body : LBody) (st : Store S) (tab : ClosTab) :
    Store S × ClosTab × Option String :=
  match body with
  | .nop => (st, tab, none)
  | .unsub cid =>
    match unsubscribeFn (tab cid) st with
    | .ok (u1, st1) => (st1, updateTab tab cid u1, none)
    | .error e => (st, tab, some e)

structure RunLRes (S : Type) where
  store : Store S
  tab : ClosTab
  trace : List Nat
  err : Option String

/-- The listener notification loop of `dispatch`, over the snapshot taken at
its start; `trace` records the listeners invoked, in order. -/
def runListeners {S : Type} (prog : Nat → LBody) :
    List Nat → Store S → ClosTab → RunLRes S
  | [], st, tab => ⟨st, tab, [], none⟩
  | l :: rest, st, tab =>
    match runLBody (prog l) st tab with
    | (st1, tab1, some e) => ⟨st1, tab1, [l], some e⟩
    | (st1, tab1, none) =>
      let r := runListeners prog rest st1 tab1
      ⟨r.store, r.tab, l :: r.trace, r.err⟩

structure DispatchResult (S : Type) where
  store : Store S
  tab : ClosTab
  invoked : List Nat
  result : Except String JSVal

/-- `dispatch(action)`: validate (plain object, defined `type`, not already
dispatching), run the reducer inside
`try { isDispatching = true; ... } finally { isDispatching = false }`
— the flag is true exactly for the duration of the reducer call and is reset
even when the reducer throws, in which case no listener runs and the state
is left untouched — then snapshot `const listeners = (currentListeners =
nextListeners)`, invoke every snapshotted listener in order, and return the
original action. -/
def dispatch {S : Type} (prog : Nat → LBody) (st : Store S) (tab : ClosTab)
    (action : JSVal) : DispatchResult S :=
  if isPlainObject action = false then
    ⟨st, tab, [], .error actionsPlainErrMsg⟩
  else if (getField action "type").isUndefined then
    ⟨st, tab, [], .error actionTypeErrMsg⟩
  else if st.isDispatching then
    ⟨st, tab, [], .error reducersDispatchErrMsg⟩
  else
    match st.currentReducer st.currentState action with
    | .error e => ⟨{ st with isDispatching := false }, tab, [], .error e⟩
    | .ok nextState =>
      let st1 : Store S := { st with currentState := nextState, isDispatching := false }
      let listeners := st1.nextListeners
      let st2 : Store S := { st1 with currentListeners := some listeners }
      let r := runListeners prog listeners st2 tab
      match r.err with
      | some e => ⟨r.store, r.tab, r.trace, .error e⟩
      | none => ⟨r.store, r.tab, r.trace, .ok action⟩

/-- A listener body executed while the engine is idle never throws and never
touches the dispatching flag, the reducer, or the state. -/
theorem runLBody_idle {S : Type} (body : LBody) (st : Store S) (tab : ClosTab)
    (h : st.isDispatching = false) :
    (runLBody body st tab).2.2 = none
    ∧ (runLBody body st tab).1.isDispatching = false
    ∧ (runLBody body st tab).1.currentReducer = st.currentReducer
    ∧ (runLBody body st tab).1.currentState = st.currentState := by
  cases body with
  | nop => exact ⟨rfl, h, rfl, rfl⟩
  | unsub cid =>
    by_cases hs : (tab cid).subscribed = false
    · simp [runLBody, unsubscribeFn, hs, h]
    · simp [runLBody, unsubscribeFn, hs, h, ensureCanMutateNextListeners]

/-- The notification loop run from an idle engine invokes exactly the
snapshotted listeners, in order, without throwing, and preserves the flag,
the reducer and the state. -/
theorem runListeners_total {S : Type} (prog : Nat → LBody) :
    ∀ (ls : List Nat) (st : Store S) (tab : ClosTab),
      st.isDispatching = false →
      (runListeners prog ls st tab).err = none
      ∧ (runListeners prog ls st tab).trace = ls
      ∧ (runListeners prog ls st tab).store.isDispatching = false
      ∧ (runListeners prog ls st tab).store.currentReducer = st.currentReducer
      ∧ (runListeners prog ls st tab).store.currentState = st.currentState := by
  intro ls
  induction ls with
  | nil => intro st tab h; exact ⟨rfl, rfl, h, rfl, rfl⟩
  | cons x rest ih =>
    intro st tab h
    obtain ⟨hb1, hb2, hb3, hb4⟩ := runLBody_idle (prog x) st tab h
    cases hr : runLBody (prog x) st tab with
    | mk st1 p =>
      obtain ⟨tab1, e?⟩ := p
      rw [hr] at hb1 hb2 hb3 hb4
      simp only at hb1 hb2 hb3 hb4
      subst hb1
      obtain ⟨ih1, ih2, ih3, ih4, ih5⟩ := ih st1 tab1 hb2
      refine ⟨?_, ?_, ?_, ?_, ?_⟩ <;>
        simp [runListeners, hr, ih1, ih2, ih3, ih4, ih5, hb3, hb4]

/-- Shared success path of `dispatch`: a valid action dispatched while idle
whose reducer call succeeds makes `dispatch` return the very action object
passed in. -/
theorem dispatch_ok {S : Type} (prog : Nat → LBody) (st : Store S)
    (tab : ClosTab) (action : JSVal) (s' : S)
    (hplain : isPlainObject action = true)
    (htype : (getField action "type").isUndefined = false)
    (hidle : st.isDispatching = false)
    (hred : st.currentReducer st.currentState action = .ok s') :
    (dispatch prog st tab action).result = .ok action := by
  have htot := (runListeners_total prog st.nextListeners
    (Store.mk st.currentReducer s' (some st.nextListeners) st.nextListeners false)
    tab rfl).1
  simp [dispatch, hplain, htype, hidle, hred, htot]


/-- C5: every action accepted by `dispatch` — a plain object with a defined
`type`, dispatched while the engine is idle — is returned unchanged, the very
same action value, whenever the dispatch completes (the reducer call
succeeds; the nop/unsubscribe listener bodies modelled here never throw). -/
theorem c5_dispatch_returns_action {S : Type} (prog : Nat → LBody)
    (st : Store S) (tab : ClosTab) (action : JSVal) (s' : S)
    (hplain : isPlainObject action = true)
    (htype : (getField action "type").isUndefined = false)
    (hidle : st.isDispatching = false)
    (hred : st.currentReducer st.currentState action = .ok s') :
    (dispatch prog st tab action).result = .ok action :=
  dispatch_ok prog st tab action s' hplain htype hidle hred

/-- A plain action object with a string `type`, as used by the witnesses:
object id 0, prototype chain of length one (a mapping literal). -/
def witnessAction : JSVal :=
  .obj 0 [1] [("type", .strV "T")]

/-- An idle store over `Nat` state whose reducer increments on every action. -/
def witnessStore : Store Nat :=
  { currentReducer := fun s _ => .ok (s + 1), currentState := 0,
    currentListeners := some [], nextListeners := [], isDispatching := false }

/-- A closure table whose closures are all spent. -/
def witnessTab : ClosTab := fun _ => { listener := 0, subscribed := false }

/-- All-nop listener environment. -/
def witnessProg : Nat → LBody := fun _ => .nop

/-- Witness for C5 at a concrete store, action and reducer. -/
theorem c5_witness :
    (dispatch witnessProg witnessStore witnessTab witnessAction).result =
      .ok witnessAction :=
  c5_dispatch_returns_action witnessProg witnessStore witnessTab witnessAction 1
    (by rfl) (by rfl) (by rfl) (by rfl)

/-- C4: when the reducer throws during an otherwise-valid dispatch, the
engine is left exactly as it was — the dispatching flag is reset by the
`finally` block, no partial state update is committed, `getState` still
reports the pre-dispatch state, no listener is notified — and a subsequent
dispatch of a valid action is not rejected as re-entrant (it runs to
completion). -/
theorem c4_reducer_throw_resets {S : Type} (prog : Nat → LBody)
    (st : Store S) (tab : ClosTab) (action : JSVal) (e : String)
    (hplain : isPlainObject action = true)
    (htype : (getField action "type").isUndefined = false)
    (hidle : st.isDispatching = false)
    (hred : st.currentReducer st.currentState action = .error e) :
    (dispatch prog st tab action).store = st
    ∧ (dispatch prog st tab action).result = .error e
    ∧ (dispatch prog st tab action).invoked = []
    ∧ getState (dispatch prog st tab action).store = .ok st.currentState
    ∧ ∀ (action2 : JSVal) (s2 : S),
        isPlainObject action2 = true →
        (getField action2 "type").isUndefined = false →
        st.currentReducer st.currentState action2 = .ok s2 →
        (dispatch prog (dispatch prog st tab action).store tab action2).result =
          .ok action2 := by
  have hstore : (dispatch prog st tab action).store = st := by
    obtain ⟨red, cs, cl, nl, flag⟩ := st
    simp only at hidle hred
    subst hidle
    simp [dispatch, hplain, htype, hred]
  refine ⟨hstore, ?_, ?_, ?_, ?_⟩
  · simp [dispatch, hplain, htype, hidle, hred]
  · simp [dispatch, hplain, htype, hidle, hred]
  · rw [hstore, getState, if_neg (by simp [hidle])]
  · intro action2 s2 hp2 ht2 hr2
    rw [hstore]
    exact dispatch_ok prog st tab action2 s2 hp2 ht2 hidle hr2

/-- A store whose reducer always throws, used by the C4 witness. -/
def witnessThrowStore : Store Nat :=
  { currentReducer := fun _ _ => .error "boom", currentState := 41,
    currentListeners := some [], nextListeners := [], isDispatching := false }

/-- Witness for C4: the failing dispatch leaves the concrete store intact.
The subsequent-dispatch conjunct is instantiated vacuously-free via the same
store, whose reducer always throws, so the quantified conjunct is kept in
its hypothesis-guarded form. -/
theorem c4_witness :
    (dispatch witnessProg witnessThrowStore witnessTab witnessAction).store =
      witnessThrowStore
    ∧ (dispatch witnessProg witnessThrowStore witnessTab witnessAction).result =
        .error "boom"
    ∧ (dispatch witnessProg witnessThrowStore witnessTab witnessAction).invoked = []
    ∧ getState (dispatch witnessProg witnessThrowStore witnessTab witnessAction).store =
        .ok 41
    ∧ ∀ (action2 : JSVal) (s2 : Nat),
        isPlainObject action2 = true →
        (getField action2 "type").isUndefined = false →
        witnessThrowStore.currentReducer witnessThrowStore.currentState action2 =
          .ok s2 →
        (dispatch witnessProg
          (dispatch witnessProg witnessThrowStore witnessTab witnessAction).store
          witnessTab action2).result = .ok action2 :=
  c4_reducer_throw_resets witnessProg witnessThrowStore witnessTab witnessAction
    "boom" (by rfl) (by rfl) (by rfl) (by rfl)

/-- C3 as amended: while the engine is dispatching, `getState`, `subscribe`
and a live unsubscribe closure all fail with their illegal-operation errors,
and `dispatch` always fails (with the re-entrancy error when the action is
valid, with the corresponding validation error otherwise) — except that an
already-spent unsubscribe closure returns silently, because its
`isSubscribed` short-circuit precedes the dispatching check. -/
theorem c3_amended_reentrancy {S : Type} (prog : Nat → LBody) (st : Store S)
    (tab : ClosTab) (action : JSVal) (lsn : Nat) (u : UnsubClosure)
    (hdisp : st.isDispatching = true) :
    getState st = .error getStateErrMsg
    ∧ subscribe st lsn = .error subscribeErrMsg
    ∧ (dispatch prog st tab action).result.isOk = false
    ∧ (isPlainObject action = true → (getField action "type").isUndefined = false →
        (dispatch prog st tab action).result = .error reducersDispatchErrMsg)
    ∧ (u.subscribed = true → unsubscribeFn u st = .error unsubscribeErrMsg) := by
  refine ⟨?_, ?_, ?_, ?_, ?_⟩
  · simp [getState, hdisp]
  · simp [subscribe, hdisp]
  · by_cases hp : isPlainObject action = false
    · simp [dispatch, hp, Except.isOk, Except.toBool]
    · by_cases ht : (getField action "type").isUndefined = true
      · simp [dispatch, hp, ht, Except.isOk, Except.toBool]
      · simp [dispatch, hp, ht, hdisp, Except.isOk, Except.toBool]
  · intro hp ht
    simp [dispatch, hp, ht, hdisp]
  · intro hu
    simp [unsubscribeFn, hu, hdisp]

/-- A concrete engine caught mid-dispatch, for the C3 theorems. -/
def dispatchingStore : Store Nat :=
  { currentReducer := fun s _ => .ok s, currentState := 0,
    currentListeners := some [], nextListeners := [7], isDispatching := true }

/-- C3 counterexample: an unsubscribe function that was already used is a
silent no-op even while the engine is dispatching — its `isSubscribed` check
returns before the illegal-operation guard — so not every
call of an unsubscribe function from inside a reducer fails. -/
theorem c3_counterexample :
    unsubscribeFn { listener := 7, subscribed := false } dispatchingStore =
      .ok ({ listener := 7, subscribed := false }, dispatchingStore) := rfl

/-- Witness for the amended C3 at a concrete mid-dispatch engine and a live
unsubscribe closure. -/
theorem c3_witness :
    getState dispatchingStore = .error getStateErrMsg
    ∧ subscribe dispatchingStore 3 = .error subscribeErrMsg
    ∧ (dispatch witnessProg dispatchingStore witnessTab witnessAction).result.isOk
        = false
    ∧ (isPlainObject witnessAction = true →
        (getField witnessAction "type").isUndefined = false →
        (dispatch witnessProg dispatchingStore witnessTab witnessAction).result =
          .error reducersDispatchErrMsg)
    ∧ (({ listener := 7, subscribed := true } : UnsubClosure).subscribed = true →
        unsubscribeFn { listener := 7, subscribed := true } dispatchingStore =
          .error unsubscribeErrMsg) :=
  c3_amended_reentrancy witnessProg dispatchingStore witnessTab witnessAction 3
    { listener := 7, subscribed := true } (by rfl)

/-- `indexOf` on a present element: a valid index. -/
theorem jsIndexOf_bounds :
    ∀ (l : List Nat) (x : Nat), x ∈ l →
      0 ≤ jsIndexOf l x ∧ jsIndexOf l x < (l.length : Int) := by
  intro l
  induction l with
  | nil => intro x hx; exact absurd hx (by simp)
  | cons y ys ih =>
    intro x hx
    by_cases hy : y = x
    · have h0 : jsIndexOf (y :: ys) x = 0 := by simp [jsIndexOf, hy]
      rw [h0]
      simp only [List.length_cons]
      omega
    · have hx' : x ∈ ys := by
        rcases List.mem_cons.mp hx with h | h
        · exact absurd h.symm hy
        · exact h
      obtain ⟨h0, hlt⟩ := ih x hx'
      have hstep : jsIndexOf (y :: ys) x = jsIndexOf ys x + 1 := by
        simp only [jsIndexOf]
        rw [if_neg hy, if_neg (by omega)]
      rw [hstep]
      simp only [List.length_cons]
      push_cast
      omega

/-- `splice(n, 1)` at an in-range non-negative index. -/
theorem jsSpliceOne_nonneg (l : List Nat) (n : Nat) (h : n ≤ l.length) :
    jsSpliceOne l (n : Int) = l.take n ++ l.drop (n + 1) := by
  simp only [jsSpliceOne]
  rw [if_neg (by omega), min_eq_left (by exact_mod_cast h)]
  simp

/-- Removing the first occurrence of a present element via
`splice(indexOf(x), 1)` agrees with `List.erase`. -/
theorem jsRemoveFirst_eq_erase :
    ∀ (l : List Nat) (x : Nat), x ∈ l → jsRemoveFirst l x = l.erase x := by
  intro l
  induction l with
  | nil => intro x hx; exact absurd hx (by simp)
  | cons y ys ih =>
    intro x hx
    by_cases hy : y = x
    · subst hy
      have h0 : jsIndexOf (y :: ys) y = ((0 : Nat) : Int) := by simp [jsIndexOf]
      rw [jsRemoveFirst, h0, jsSpliceOne_nonneg _ _ (Nat.zero_le _)]
      simp
    · have hx' : x ∈ ys := by
        rcases List.mem_cons.mp hx with h | h
        · exact absurd h.symm hy
        · exact h
      obtain ⟨h0, hlt⟩ := jsIndexOf_bounds ys x hx'
      obtain ⟨t, ht⟩ : ∃ t : Nat, jsIndexOf ys x = (t : Int) :=
        ⟨(jsIndexOf ys x).toNat, (Int.toNat_of_nonneg h0).symm⟩
      have htlen : t < ys.length := by
        rw [ht] at hlt
        exact_mod_cast hlt
      have hone : jsIndexOf (y :: ys) x = ((t + 1 : Nat) : Int) := by
        have hstep : jsIndexOf (y :: ys) x = jsIndexOf ys x + 1 := by
          simp only [jsIndexOf]
          rw [if_neg hy, if_neg (by omega)]
        rw [hstep, ht]
        omega
      have hlen : t + 1 ≤ (y :: ys).length := by
        simp only [List.length_cons]
        omega
      rw [jsRemoveFirst, hone, jsSpliceOne_nonneg _ _ hlen]
      have hinner : ys.take t ++ ys.drop (t + 1) = jsRemoveFirst ys x := by
        rw [jsRemoveFirst, ht, jsSpliceOne_nonneg _ _ (by omega)]
      rw [List.take_succ_cons, List.cons_append, List.drop_succ_cons,
        hinner, ih x hx', List.erase_cons, if_neg (by simp [hy])]

/-- One-shot unsubscription during the notification loop: with `prog a`
invoking the closure `cid` over listener `b` and every other snapshotted
body a nop, the loop removes the first occurrence of `b` from the pending
list exactly when the closure is still live and `a` is in the snapshot, and
leaves the pending list untouched when the closure is already spent or `a`
is not in the snapshot. -/
theorem runListeners_oneShot {S : Type} (prog : Nat → LBody) (a cid b : Nat)
    (hpa : prog a = .unsub cid) :
    ∀ (ls : List Nat) (st : Store S) (tab : ClosTab),
      st.isDispatching = false →
      (∀ x ∈ ls, x ≠ a → prog x = .nop) →
      (tab cid).listener = b →
      (((tab cid).subscribed = true → a ∈ ls →
          (runListeners prog ls st tab).store.nextListeners =
            jsRemoveFirst st.nextListeners b
          ∧ (runListeners prog ls st tab).tab cid =
              { listener := b, subscribed := false })
       ∧ ((tab cid).subscribed = false →
          (runListeners prog ls st tab).store.nextListeners = st.nextListeners
          ∧ (runListeners prog ls st tab).tab cid = tab cid)
       ∧ (a ∉ ls →
          (runListeners prog ls st tab).store.nextListeners = st.nextListeners
          ∧ (runListeners prog ls st tab).tab cid = tab cid)) := by
  intro ls
  induction ls with
  | nil =>
    intro st tab _ _ _
    exact ⟨fun _ hmem => absurd hmem (by simp), fun _ => ⟨rfl, rfl⟩,
      fun _ => ⟨rfl, rfl⟩⟩
  | cons x rest ih =>
    intro st tab hidle hbodies hlst
    by_cases hxa : x = a
    · subst hxa
      by_cases hsub : (tab cid).subscribed = true
      · have hun : unsubscribeFn (tab cid) st =
            .ok ({ listener := b, subscribed := false },
              { st with
                  nextListeners := jsRemoveFirst st.nextListeners b,
                  currentListeners := none }) := by
          unfold unsubscribeFn
          rw [if_neg (by simp [hsub]), if_neg (by simp [hidle])]
          simp only [ensureCanMutateNextListeners, jsRemoveFirst, hlst]
        have hbody : runLBody (prog x) st tab =
            ({ st with
                nextListeners := jsRemoveFirst st.nextListeners b,
                currentListeners := none },
              updateTab tab cid { listener := b, subscribed := false }, none) := by
          simp [runLBody, hpa, hun]
        have hlst1 :
            ((updateTab tab cid { listener := b, subscribed := false }) cid).listener
              = b := by simp [updateTab]
        have hbodies1 : ∀ y ∈ rest, y ≠ x → prog y = .nop :=
          fun y hy => hbodies y (List.mem_cons_of_mem _ hy)
        obtain ⟨_, ib2, _⟩ := ih
          ({ st with
              nextListeners := jsRemoveFirst st.nextListeners b,
              currentListeners := none })
          (updateTab tab cid { listener := b, subscribed := false })
          (by simp [hidle]) hbodies1 hlst1
        obtain ⟨ihn, iht⟩ := ib2 (by simp [updateTab])
        refine ⟨fun _ _ => ?_, fun hs => ?_, fun hnot => ?_⟩
        · constructor
          · simp only [runListeners, hbody]
            exact ihn
          · simp only [runListeners, hbody]
            rw [iht]
            simp [updateTab]
        · rw [hs] at hsub
          exact absurd hsub (by simp)
        · exact absurd (List.mem_cons_self x rest) hnot
      · have hsub' : (tab cid).subscribed = false := by
          cases h : (tab cid).subscribed with
          | true => exact absurd h hsub
          | false => rfl
        have hun : unsubscribeFn (tab cid) st = .ok (tab cid, st) := by
          unfold unsubscribeFn
          rw [if_pos hsub']
        have hbody : runLBody (prog x) st tab =
            (st, updateTab tab cid (tab cid), none) := by
          simp [runLBody, hpa, hun]
        have hlst1 : ((updateTab tab cid (tab cid)) cid).listener = b := by
          simp [updateTab, hlst]
        have hbodies1 : ∀ y ∈ rest, y ≠ x → prog y = .nop :=
          fun y hy => hbodies y (List.mem_cons_of_mem _ hy)
        obtain ⟨_, ib2, _⟩ := ih st (updateTab tab cid (tab cid)) hidle hbodies1 hlst1
        obtain ⟨ihn, iht⟩ := ib2 (by simp [updateTab, hsub'])
        refine ⟨fun hs _ => absurd hs (by simp [hsub']), fun _ => ?_, fun _ => ?_⟩
        · constructor
          · simp only [runListeners, hbody]
            exact ihn
          · simp only [runListeners, hbody]
            rw [iht]
            simp [updateTab]
        · constructor
          · simp only [runListeners, hbody]
            exact ihn
          · simp only [runListeners, hbody]
            rw [iht]
            simp [updateTab]
    · have hnopx : prog x = .nop := hbodies x (List.mem_cons_self x rest) hxa
      have hbody : runLBody (prog x) st tab = (st, tab, none) := by
        simp [runLBody, hnopx]
      have hbodies1 : ∀ y ∈ rest, y ≠ a → prog y = .nop :=
        fun y hy => hbodies y (List.mem_cons_of_mem _ hy)
      obtain ⟨ib1, ib2, ib3⟩ := ih st tab hidle hbodies1 hlst
      refine ⟨fun hs hmem => ?_, fun hs => ?_, fun hnot => ?_⟩
      · have hmem' : a ∈ rest := by
          rcases List.mem_cons.mp hmem with h | h
          · exact absurd h.symm hxa
          · exact h
        obtain ⟨ihn, iht⟩ := ib1 hs hmem'
        exact ⟨by simp only [runListeners, hbody]; exact ihn,
          by simp only [runListeners, hbody]; exact iht⟩
      · obtain ⟨ihn, iht⟩ := ib2 hs
        exact ⟨by simp only [runListeners, hbody]; exact ihn,
          by simp only [runListeners, hbody]; exact iht⟩
      · have hnot' : a ∉ rest := fun h => hnot (List.mem_cons_of_mem _ h)
        obtain ⟨ihn, iht⟩ := ib3 hnot'
        exact ⟨by simp only [runListeners, hbody]; exact ihn,
          by simp only [runListeners, hbody]; exact iht⟩

/-- C6: the committed listener list is snapshotted once when notification
begins.  With listener `a` unsubscribing listener `b` (registered once, via
the still-live closure `cid`) from within dispatch N, `b` is still invoked
during dispatch N — the invocation trace is the whole snapshot — but is not
invoked during dispatch N+1. -/
theorem c6_listener_snapshot {S : Type} (prog : Nat → LBody) (st : Store S)
    (tab : ClosTab) (action : JSVal) (a b cid : Nat) (l : List Nat) (s1 s2 : S)
    (hplain : isPlainObject action = true)
    (htype : (getField action "type").isUndefined = false)
    (hidle : st.isDispatching = false)
    (hl : st.nextListeners = l)
    (hpa : prog a = .unsub cid)
    (hothers : ∀ x ∈ l, x ≠ a → prog x = .nop)
    (htab : tab cid = { listener := b, subscribed := true })
    (hain : a ∈ l)
    (hcount : l.count b = 1)
    (hne : a ≠ b)
    (hred1 : st.currentReducer st.currentState action = .ok s1)
    (hred2 : st.currentReducer s1 action = .ok s2) :
    (dispatch prog st tab action).invoked = l
    ∧ b ∈ (dispatch prog st tab action).invoked
    ∧ b ∉ (dispatch prog (dispatch prog st tab action).store
        (dispatch prog st tab action).tab action).invoked := by
  have hbmem : b ∈ l := by
    by_contra hb
    rw [List.count_eq_zero_of_not_mem hb] at hcount
    exact absurd hcount (by simp)
  obtain ⟨herr1, htr1, hfl1, hcr1, hcs1⟩ := runListeners_total prog st.nextListeners
    (Store.mk st.currentReducer s1 (some st.nextListeners) st.nextListeners false)
    tab rfl
  have hr1 : dispatch prog st tab action =
      ⟨(runListeners prog st.nextListeners
          (Store.mk st.currentReducer s1 (some st.nextListeners)
            st.nextListeners false) tab).store,
        (runListeners prog st.nextListeners
          (Store.mk st.currentReducer s1 (some st.nextListeners)
            st.nextListeners false) tab).tab,
        (runListeners prog st.nextListeners
          (Store.mk st.currentReducer s1 (some st.nextListeners)
            st.nextListeners false) tab).trace, .ok action⟩ := by
    simp [dispatch, hplain, htype, hidle, hred1, herr1]
  obtain ⟨hOne1, _, _⟩ := runListeners_oneShot prog a cid b hpa st.nextListeners
    (Store.mk st.currentReducer s1 (some st.nextListeners) st.nextListeners false)
    tab rfl (by rw [hl]; exact hothers) (by rw [htab])
  obtain ⟨hnl, htabcid⟩ := hOne1 (by rw [htab]) (by rw [hl]; exact hain)
  simp only at hnl hcr1 hcs1 hfl1 htr1
  obtain ⟨herr2, htr2, _, _, _⟩ := runListeners_total prog
    ((runListeners prog st.nextListeners
        (Store.mk st.currentReducer s1 (some st.nextListeners)
          st.nextListeners false) tab).store.nextListeners)
    (Store.mk
      ((runListeners prog st.nextListeners
          (Store.mk st.currentReducer s1 (some st.nextListeners)
            st.nextListeners false) tab).store.currentReducer)
      s2
      (some ((runListeners prog st.nextListeners
          (Store.mk st.currentReducer s1 (some st.nextListeners)
            st.nextListeners false) tab).store.nextListeners))
      ((runListeners prog st.nextListeners
          (Store.mk st.currentReducer s1 (some st.nextListeners)
            st.nextListeners false) tab).store.nextListeners)
      false)
    ((runListeners prog st.nextListeners
        (Store.mk st.currentReducer s1 (some st.nextListeners)
          st.nextListeners false) tab).tab) rfl
  have hred2' : (runListeners prog st.nextListeners
      (Store.mk st.currentReducer s1 (some st.nextListeners)
        st.nextListeners false) tab).store.currentReducer
      ((runListeners prog st.nextListeners
        (Store.mk st.currentReducer s1 (some st.nextListeners)
          st.nextListeners false) tab).store.currentState) action = .ok s2 := by
    rw [hcr1, hcs1]
    exact hred2
  have hr2 : dispatch prog
      ((runListeners prog st.nextListeners
          (Store.mk st.currentReducer s1 (some st.nextListeners)
            st.nextListeners false) tab).store)
      ((runListeners prog st.nextListeners
          (Store.mk st.currentReducer s1 (some st.nextListeners)
            st.nextListeners false) tab).tab) action =
      ⟨(runListeners prog
          ((runListeners prog st.nextListeners
              (Store.mk st.currentReducer s1 (some st.nextListeners)
                st.nextListeners false) tab).store.nextListeners)
          (Store.mk
            ((runListeners prog st.nextListeners
                (Store.mk st.currentReducer s1 (some st.nextListeners)
                  st.nextListeners false) tab).store.currentReducer)
            s2
            (some ((runListeners prog st.nextListeners
                (Store.mk st.currentReducer s1 (some st.nextListeners)
                  st.nextListeners false) tab).store.nextListeners))
            ((runListeners prog st.nextListeners
                (Store.mk st.currentReducer s1 (some st.nextListeners)
                  st.nextListeners false) tab).store.nextListeners)
            false)
          ((runListeners prog st.nextListeners
              (Store.mk st.currentReducer s1 (some st.nextListeners)
                st.nextListeners false) tab).tab)).store,
        (runListeners prog
          ((runListeners prog st.nextListeners
              (Store.mk st.currentReducer s1 (some st.nextListeners)
                st.nextListeners false) tab).store.nextListeners)
          (Store.mk
            ((runListeners prog st.nextListeners
                (Store.mk st.currentReducer s1 (some st.nextListeners)
                  st.nextListeners false) tab).store.currentReducer)
            s2
            (some ((runListeners prog st.nextListeners
                (Store.mk st.currentReducer s1 (some st.nextListeners)
                  st.nextListeners false) tab).store.nextListeners))
            ((runListeners prog st.nextListeners
                (Store.mk st.currentReducer s1 (some st.nextListeners)
                  st.nextListeners false) tab).store.nextListeners)
            false)
          ((runListeners prog st.nextListeners
              (Store.mk st.currentReducer s1 (some st.nextListeners)
                st.nextListeners false) tab).tab)).tab,
        (runListeners prog
          ((runListeners prog st.nextListeners
              (Store.mk st.currentReducer s1 (some st.nextListeners)
                st.nextListeners false) tab).store.nextListeners)
          (Store.mk
            ((runListeners prog st.nextListeners
                (Store.mk st.currentReducer s1 (some st.nextListeners)
                  st.nextListeners false) tab).store.currentReducer)
            s2
            (some ((runListeners prog st.nextListeners
                (Store.mk st.currentReducer s1 (some st.nextListeners)
                  st.nextListeners false) tab).store.nextListeners))
            ((runListeners prog st.nextListeners
                (Store.mk st.currentReducer s1 (some st.nextListeners)
                  st.nextListeners false) tab).store.nextListeners)
            false)
          ((runListeners prog st.nextListeners
              (Store.mk st.currentReducer s1 (some st.nextListeners)
                st.nextListeners false) tab).tab)).trace, .ok action⟩ := by
    simp [dispatch, hplain, htype, hfl1, hred2', herr2]
  refine ⟨?_, ?_, ?_⟩
  · rw [hr1]
    simp only
    rw [htr1, hl]
  · rw [hr1]
    simp only
    rw [htr1, hl]
    exact hbmem
  · rw [hr1]
    simp only
    rw [hr2]
    simp only
    rw [htr2, hnl, hl, jsRemoveFirst_eq_erase l b hbmem]
    intro hmem
    have hpos : 0 < List.count b (l.erase b) := List.count_pos_iff.mpr hmem
    rw [List.count_erase_self, hcount] at hpos
    omega

/-- Store for the C6 witness: two listeners pending, ids 10 and 20. -/
def c6Store : Store Nat :=
  { currentReducer := fun s _ => .ok s, currentState := 0,
    currentListeners := some [], nextListeners := [10, 20],
    isDispatching := false }

/-- Closure table for the C6 witness: closure 0 is live over listener 20. -/
def c6Tab : ClosTab := fun _ => { listener := 20, subscribed := true }

/-- Listener environment for the C6 witness: listener 10 invokes the
unsubscribe closure of listener 20; everyone else does nothing. -/
def c6Prog : Nat → LBody := fun x => if x = 10 then .unsub 0 else .nop

/-- Witness for C6 at the concrete two-listener scenario. -/
theorem c6_witness :
    (dispatch c6Prog c6Store c6Tab witnessAction).invoked = [10, 20]
    ∧ 20 ∈ (dispatch c6Prog c6Store c6Tab witnessAction).invoked
    ∧ 20 ∉ (dispatch c6Prog (dispatch c6Prog c6Store c6Tab witnessAction).store
        (dispatch c6Prog c6Store c6Tab witnessAction).tab witnessAction).invoked :=
  c6_listener_snapshot c6Prog c6Store c6Tab witnessAction 10 20 0 [10, 20] 0 0
    (by rfl) (by rfl) (by rfl) (by rfl) (by rfl) (by decide) (by rfl)
    (by decide) (by decide) (by decide) (by rfl) (by rfl)

end Redux
